import Mathlib

/-!
Verification development for the craft-mcp-cli connection runtime and its
OAuth subsystem.  The definitions below are a shallow embedding of the
TypeScript source: the runtime file (McpRuntime, FileOAuthClientProvider,
connectWithAuth, waitForAuthorizationCodeWithTimeout), the OAuth discovery
module (selectScopes) and the promotion helper (maybeEnableOAuth).  Pure
functions are translated directly; the stateful runtime is embedded as
explicit state passing, with the event-driven scheduling of Node modelled at
the granularity the source guarantees: a stretch of code with no await point
executes atomically.
-/
set_option maxRecDepth 4000

/-- Typed failure taxonomy of the runtime.  The source classifies errors via
the external error-classifier module (analyzeConnectionError, not under src),
so each constructor stands for the class the classifier assigns: the
unauthorized constructor is exactly the class of errors with kind auth, the
oauthTimeout constructor is the OAuthTimeoutError subclass (carrying the
server name and the timeout in milliseconds, as the TypeScript class does),
and tokensRefreshed is the OAuthTokensRefreshedError control-flow signal. -/
inductive RtError where
  | unauthorized (msg : String)
  | oauthTimeout (server : String) (timeoutMs : Nat)
  | tokensRefreshed (msg : String)
  | notFound (msg : String)
  | alreadyExists (msg : String)
  | transportFailure (msg : String)
  | oauthCallbackError (msg : String)
  deriving DecidableEq, Repr

/-- Models isUnauthorizedError: analyzeConnectionError(error).kind is auth. -/
def isUnauthorizedError : RtError → Bool
  | .unauthorized _ => true
  | _ => false

/-- Models the instanceof OAuthTokensRefreshedError test. -/
def isTokensRefreshedErr : RtError → Bool
  | .tokensRefreshed _ => true
  | _ => false

/-- Models the instanceof OAuthTimeoutError test. -/
def isOAuthTimeoutErr : RtError → Bool
  | .oauthTimeout _ _ => true
  | _ => false

/-- Characters removed by the JavaScript String.prototype.trim. -/
def isJsSpace (c : Char) : Bool :=
  c = ' ' || c = '\t' || c = '\n' || c = '\r'

/-- Models String.prototype.trim on connection names. -/
def jsTrim (s : String) : String :=
  String.mk (((s.toList.dropWhile isJsSpace).reverse.dropWhile isJsSpace).reverse)

/-- Helper for jsSplitSpace: walks the character list accumulating the
current token (reversed) and emits a token at every space character. -/
def splitSpacesAux : List Char → List Char → List String
  | [], acc => [String.mk acc.reverse]
  | c :: rest, acc =>
    if c = ' ' then String.mk acc.reverse :: splitSpacesAux rest []
    else splitSpacesAux rest (c :: acc)

/-- Models the JavaScript split with a single-space separator: every space
character ends a token, and adjacent spaces produce empty tokens, exactly as
challengedScope.split(" ") does in the source. -/
def jsSplitSpace (s : String) : List String :=
  splitSpacesAux s.toList []

/-- Models String.prototype.endsWith via list suffix comparison. -/
def strEndsWith (s suffix : String) : Bool :=
  suffix.toList.isSuffixOf s.toList

/-- Models String.prototype.startsWith via list comparison. -/
def strStartsWith (s pre : String) : Bool :=
  pre.toList.isPrefixOf s.toList

/-- Scope selection from oauth-discovery.ts.  Mirrors the final fallthrough
of the priority chain: a nonempty protectedResourceScopes list wins,
otherwise the scope parameter is omitted. -/
def selectScopesRest2 (protectedResourceScopes : Option (List String)) : Option (List String) :=
  match protectedResourceScopes with
  | some l => if l.length > 0 then some l else none
  | none => none

/-- Second step of the priority chain of selectScopes: a nonempty
scopesSupported list from the authorization-server metadata wins, otherwise
fall through to the protected-resource scopes. -/
def selectScopesRest (scopesSupported protectedResourceScopes : Option (List String)) :
    Option (List String) :=
  match scopesSupported with
  | some l => if l.length > 0 then some l else selectScopesRest2 protectedResourceScopes
  | none => selectScopesRest2 protectedResourceScopes

/-- Direct translation of selectScopes from oauth-discovery.ts.  The
JavaScript truthiness test if (challengedScope) holds exactly for a defined,
nonempty string, so the empty string falls through like an absent value; the
length tests on the two lists are literal. -/
def selectScopes (challengedScope : Option String)
    (scopesSupported protectedResourceScopes : Option (List String)) :
    Option (List String) :=
  match challengedScope with
  | some cs =>
    if cs = "" then selectScopesRest scopesSupported protectedResourceScopes
    else some ((jsSplitSpace cs).filter (fun s => s.length > 0))
  | none => selectScopesRest scopesSupported protectedResourceScopes

/-! ### Callback listener (FileOAuthClientProvider.attachServer) -/
/-- One HTTP response written by the callback server. -/
structure HttpResponse where
  status : Nat
  body : String
  deriving DecidableEq, Repr

/-- Effect of one request on the pending authorization deferred. -/
inductive DeferredEffect where
  | resolved (code : String)
  | rejected (msg : String)
  | untouched
  deriving DecidableEq, Repr

/-- Incoming request, already split into path and query parameters; the
source derives both from req.url via the URL constructor. -/
structure CallbackRequest where
  path : String
  query : List (String × String)
  deriving Repr

/-- Models URLSearchParams.get: first value for the key, or null. -/
def getQueryParam (query : List (String × String)) (k : String) : Option String :=
  match query with
  | [] => none
  | (k2, v) :: rest => if k2 = k then some v else getQueryParam rest k

/-- Result of handling one request: the responses written (the handler
writes exactly one per request), the effect on the pending deferred, and
whether a pending deferred remains afterwards. -/
structure CallbackOutcome where
  responses : List HttpResponse
  effect : DeferredEffect
  pendingAfter : Bool
  deriving DecidableEq, Repr

/-- Static success page written on a code redirect. -/
def successHtml : String :=
  "<html><body><h1>Authorization successful</h1><p>You can return to the CLI.</p></body></html>"

/-- Failure page written on an error redirect; the error value is
interpolated into the body as in the source template string. -/
def failureHtml (e : String) : String :=
  "<html><body><h1>Authorization failed</h1><p>" ++ e ++ "</p></body></html>"

/-- Direct translation of the request handler installed by attachServer.
A request off the callback path gets a 404 and leaves the deferred alone.
On the callback path the code parameter (JavaScript-truthy, so nonempty)
resolves the deferred, else a truthy error parameter rejects it with a
message embedding the error value, else it is rejected with the
missing-authorization-code message; each branch writes one response and the
deferred field is cleared in all three callback branches. -/
def handleCallbackRequest (req : CallbackRequest) (pending : Bool) : CallbackOutcome :=
  if !strStartsWith req.path "/callback" then
    { responses := [{ status := 404, body := "Not found" }]
      effect := .untouched
      pendingAfter := pending }
  else
    match getQueryParam req.query "code" with
    | some c =>
      if c = "" then handleNoCode req pending
      else
        { responses := [{ status := 200, body := successHtml }]
          effect := if pending then .resolved c else .untouched
          pendingAfter := false }
    | none => handleNoCode req pending
where
  /-- Branches taken when no truthy code parameter is present. -/
  handleNoCode (req : CallbackRequest) (pending : Bool) : CallbackOutcome :=
    match getQueryParam req.query "error" with
    | some e =>
      if e = "" then
        { responses := [{ status := 400, body := "Missing authorization code" }]
          effect := if pending then .rejected "Missing authorization code" else .untouched
          pendingAfter := false }
      else
        { responses := [{ status := 400, body := failureHtml e }]
          effect := if pending then .rejected ("OAuth error: " ++ e) else .untouched
          pendingAfter := false }
    | none =>
      { responses := [{ status := 400, body := "Missing authorization code" }]
        effect := if pending then .rejected "Missing authorization code" else .untouched
        pendingAfter := false }

/-! ### Credential store (FileOAuthClientProvider.invalidateCredentials) -/
/-- File path modelled as the pair produced by path.join(dir, base). -/
structure CredPath where
  dir : String
  base : String
  deriving DecidableEq, Repr

/-- The token file of a provider directory (tokens.json). -/
def tokenPath (dir : String) : CredPath := { dir := dir, base := "tokens.json" }

/-- The registered-client file (client.json). -/
def clientInfoPath (dir : String) : CredPath := { dir := dir, base := "client.json" }

/-- The PKCE verifier file (code_verifier.txt). -/
def codeVerifierPath (dir : String) : CredPath := { dir := dir, base := "code_verifier.txt" }

/-- The anti-CSRF state file (state.txt). -/
def statePath (dir : String) : CredPath := { dir := dir, base := "state.txt" }

/-- On-disk credential state: the files currently present with contents. -/
def CredStore : Type := List (CredPath × String)

/-- Reads a file: contents of the first entry with the given path. -/
def credRead (store : CredStore) (p : CredPath) : Option String :=
  match store with
  | [] => none
  | (p2, v) :: rest => if p2 = p then some v else credRead rest p

/-- Removes every entry at the given path. -/
def credRemove (store : CredStore) (p : CredPath) : CredStore :=
  store.filter (fun e => decide (e.1 ≠ p))

/-- Models fs.unlink: deleting an absent file fails with ENOENT. -/
def fsUnlink (store : CredStore) (p : CredPath) : Except String CredStore :=
  match credRead store p with
  | some _ => .ok (credRemove store p)
  | none => .error "ENOENT"

/-- Models the per-file removal closure of invalidateCredentials: an ENOENT
failure from fs.unlink is swallowed, any other failure is rethrown. -/
def tryUnlink (store : CredStore) (p : CredPath) : Except String CredStore :=
  match fsUnlink store p with
  | .ok st => .ok st
  | .error e => if e = "ENOENT" then .ok store else .error e

/-- Invalidation scopes accepted by invalidateCredentials. -/
inductive InvalidateScope where
  | all | client | tokens | verifier
  deriving DecidableEq, Repr

/-- The removal list assembled by invalidateCredentials, in push order:
tokens first, then client info, then the code verifier; the state file is
never selected. -/
def invalidationPaths (dir : String) : InvalidateScope → List CredPath
  | .all => [tokenPath dir, clientInfoPath dir, codeVerifierPath dir]
  | .tokens => [tokenPath dir]
  | .client => [clientInfoPath dir]
  | .verifier => [codeVerifierPath dir]

/-- Folds tryUnlink over a path list; Promise.all over independent unlinks
is modelled by sequential composition. -/
def unlinkAll (store : CredStore) : List CredPath → Except String CredStore
  | [] => .ok store
  | p :: rest =>
    match tryUnlink store p with
    | .ok st => unlinkAll st rest
    | .error e => .error e

/-- Direct translation of invalidateCredentials from part_007: delete the
files selected by the scope, tolerating already-absent files. -/
def invalidateCredentials (dir : String) (scope : InvalidateScope) (store : CredStore) :
    Except String CredStore :=
  unlinkAll store (invalidationPaths dir scope)

/-- Modelled from the spec: readJsonFile lives in fs-json.ts, which is not
under src; per the data-model section an absent file is not an error and
reads back as undefined, so the tokens accessor is the plain lookup of the
token file. -/
def tokensRead (dir : String) (store : CredStore) : Option String :=
  credRead store (tokenPath dir)

/-! ### Server definitions and OAuth promotion (runtime-oauth-support) -/
/-- Auth mode of a definition; the source only ever compares auth with the
string literal oauth, so two cases suffice. -/
inductive AuthMode where
  | noAuth
  | oauth
  deriving DecidableEq, Repr

/-- The part of a parsed URL the runtime inspects. -/
structure UrlInfo where
  hostname : String
  full : String
  deriving DecidableEq, Repr

/-- The source descriptor of a definition; maybeEnableOAuth treats a local
source with the adhoc marker path specially. -/
structure SourceInfo where
  kind : String
  path : String
  deriving DecidableEq, Repr

/-- Transport command of a definition: stdio with a command line, or http
with a target URL. -/
inductive ServerCommand where
  | stdioCmd (commandLine : String)
  | httpCmd (url : UrlInfo)
  deriving DecidableEq, Repr

/-- Connection definition as consumed by McpRuntime (config.ts itself is
external; the fields here are the ones the runtime reads). -/
structure ServerDefinition where
  name : String
  command : ServerCommand
  auth : AuthMode := .noAuth
  tokenCacheDir : Option String := none
  source : Option SourceInfo := none
  deriving DecidableEq, Repr

/-- Models isCraftUrl: the hostname ends with .craft.do or .luki.io. -/
def isCraftUrl (u : UrlInfo) : Bool :=
  strEndsWith u.hostname ".craft.do" || strEndsWith u.hostname ".luki.io"

/-- Stand-in for os.homedir(), whose value the claims never inspect. -/
def homeDir : String := "~"

/-- Default token cache directory path.join(os.homedir(), ".craft", name). -/
def craftTokenDir (name : String) : String :=
  homeDir ++ "/.craft/" ++ name

/-- Models the adhoc-source test of maybeEnableOAuth: definition.source is
present with kind local and the adhoc marker path. -/
def isAdHocSource (d : ServerDefinition) : Bool :=
  match d.source with
  | some s => s.kind = "local" && s.path = "<adhoc>"
  | none => false

/-- Direct translation of maybeEnableOAuth from runtime-oauth-support: no
promotion for definitions already on oauth, for non-http transports, or for
targets that are neither adhoc-source nor Craft URLs; otherwise a copy of
the definition with auth oauth and a defaulted token cache dir. -/
def maybeEnableOAuth (d : ServerDefinition) : Option ServerDefinition :=
  if d.auth = .oauth then none
  else
    match d.command with
    | .stdioCmd _ => none
    | .httpCmd url =>
      if isAdHocSource d || isCraftUrl url then
        some { d with auth := .oauth
                      tokenCacheDir := some (d.tokenCacheDir.getD (craftTokenDir d.name)) }
      else none

/-! ### Association-list maps
The runtime stores definitions and pooled clients in JavaScript Map objects;
they are embedded as association lists with Map semantics (lookup finds the
first binding, set replaces in place or appends, delete removes the key). -/
/-- Models Map.prototype.get. -/
def lookupA {κ α : Type} [DecidableEq κ] (l : List (κ × α)) (k : κ) : Option α :=
  match l with
  | [] => none
  | (k2, v) :: rest => if k2 = k then some v else lookupA rest k

/-- Models Map.prototype.set. -/
def setA {κ α : Type} [DecidableEq κ] (l : List (κ × α)) (k : κ) (v : α) : List (κ × α) :=
  match l with
  | [] => [(k, v)]
  | (k2, v2) :: rest => if k2 = k then (k, v) :: rest else (k2, v2) :: setA rest k v

/-- Models Map.prototype.delete. -/
def eraseA {κ α : Type} [DecidableEq κ] (l : List (κ × α)) (k : κ) : List (κ × α) :=
  l.filter (fun e => decide (e.1 ≠ k))

/-! ### Connection pool (McpRuntime.connect / close / registerDefinition)
The clients Map of McpRuntime holds one in-flight or settled connection
promise per name.  JavaScript is single threaded and connect contains no
await between its cache lookup and its cache set, so that whole stretch
executes atomically with respect to concurrent calls; it is embedded below
as one step, connectStart, and N concurrent callers are the N-fold
sequential composition of that step.  Each promise is identified by a Nat
drawn from a counter, and a session heap records the context object each
promise settles to. -/
/-- Observable pieces of a pooled client context: whether close has been run
on the protocol client / transport / OAuth callback listener, and whether
each of those close calls would fail (to model the catch wrappers). -/
structure SessionObj where
  closed : Bool := false
  oauthClosed : Bool := false
  clientCloseFails : Bool := false
  transportCloseFails : Bool := false
  oauthCloseFails : Bool := false
  deriving DecidableEq, Repr

/-- Session object freshly created by a connect attempt: nothing closed,
no close failure scripted. -/
def freshSession : SessionObj :=
  { closed := false, oauthClosed := false, clientCloseFails := false
    transportCloseFails := false, oauthCloseFails := false }

/-- Pool-level runtime state: the definitions Map, the clients Map (name to
promise id), the session heap, and the fresh-id counter. -/
structure PoolState where
  defs : List (String × ServerDefinition)
  pool : List (String × Nat)
  sessions : List (Nat × SessionObj)
  nextId : Nat
  deriving DecidableEq, Repr

/-- Error message thrown by connect and getDefinition for unknown names
(quote characters of the original template string omitted). -/
def unknownServerMsg (name : String) : String :=
  "Unknown MCP server " ++ name ++ "."

/-- The synchronous part of McpRuntime.connect: trim the name, return the
memoized promise on a cache hit (unless the caller skips the cache), fail
NotFound when the definitions table has no entry, otherwise start
createClient and (when caching) memoize the new promise before any await.
Returns the promise id and whether a fresh connection attempt was started. -/
def connectStart (skipCache : Bool) (name : String) (st : PoolState) :
    Except RtError (Nat × Bool) × PoolState :=
  let normalized := jsTrim name
  let useCache := !skipCache
  match (if useCache then lookupA st.pool normalized else none) with
  | some id => (.ok (id, false), st)
  | none =>
    match lookupA st.defs normalized with
    | none => (.error (.notFound (unknownServerMsg normalized)), st)
    | some _ =>
      let id := st.nextId
      let st1 : PoolState :=
        { st with sessions := st.sessions ++ [(id, freshSession)], nextId := id + 1 }
      let st2 := if useCache then { st1 with pool := setA st1.pool normalized id } else st1
      (.ok (id, true), st2)

/-- Full sequential connect as observed by listTools and callTool: run the
synchronous part, then settle the promise.  A cache hit is already settled
successfully; a fresh attempt settles per the succeeds flag, and on failure
the catch of connect removes the memoized entry and rethrows. -/
def connectOp (skipCache succeeds : Bool) (name : String) (st : PoolState) :
    Except RtError Nat × PoolState :=
  match connectStart skipCache name st with
  | (.error e, st1) => (.error e, st1)
  | (.ok (id, createdNew), st1) =>
    if createdNew then
      if succeeds then (.ok id, st1)
      else
        (.error (.transportFailure "connect failed"),
         if !skipCache then { st1 with pool := eraseA st1.pool (jsTrim name) } else st1)
    else (.ok id, st1)

/-- N concurrent cached connects against one name: each caller runs the
atomic synchronous part in turn before any settlement occurs. -/
def connectMany : Nat → String → PoolState → List (Except RtError Nat) × PoolState
  | 0, _, st => ([], st)
  | Nat.succ n, name, st =>
    match connectStart false name st with
    | (r, st1) =>
      let rest := connectMany n name st1
      ((r.map Prod.fst) :: rest.1, rest.2)

/-- Connect options produced by listTools: autoAuthorize false maps to
maxOAuthAttempts 0, and skipCache is always false (the source comment says
cached connections may be used even when not auto-authorizing).  The pair is
(maxOAuthAttempts, skipCache). -/
def listToolsConnectOptions (autoAuthorize : Bool) : Option Nat × Bool :=
  (if autoAuthorize then none else some 0, false)

/-- Models promise.catch with a unit callback: the sub-close result of a
teardown step is swallowed. -/
def catchIgnore (_r : Except RtError Unit) : Except RtError Unit := .ok ()

/-- Close of the protocol client of a pooled context. -/
def closeClientOp (s : SessionObj) : Except RtError Unit :=
  if s.clientCloseFails then .error (.transportFailure "client close failed") else .ok ()

/-- Close of the transport (closeTransportAndWait). -/
def closeTransportOp (s : SessionObj) : Except RtError Unit :=
  if s.transportCloseFails then .error (.transportFailure "transport close failed") else .ok ()

/-- Close of the attached OAuth session, when present. -/
def closeOAuthOp (s : SessionObj) : Except RtError Unit :=
  if s.oauthCloseFails then .error (.transportFailure "oauth close failed") else .ok ()

/-- Teardown of one pooled context: run the three teardown steps (each
wrapped in catch, so a failing sub-close is swallowed), mark the session
closed and drop the pool entry for the key. -/
def closeCtxE (st : PoolState) (key : String) (id : Nat) : Except RtError PoolState :=
  match lookupA st.sessions id with
  | none => .ok { st with pool := eraseA st.pool key }
  | some s => do
    _ ← catchIgnore (closeClientOp s)
    _ ← catchIgnore (closeTransportOp s)
    _ ← catchIgnore (closeOAuthOp s)
    .ok { st with
            sessions := setA st.sessions id { s with closed := true, oauthClosed := true }
            pool := eraseA st.pool key }

/-- Models McpRuntime.close(name): trim, look up the pooled promise, return
successfully if absent, otherwise tear the context down. -/
def closeOneE (name : String) (st : PoolState) : Except RtError PoolState :=
  match lookupA st.pool (jsTrim name) with
  | none => .ok st
  | some id => closeCtxE st (jsTrim name) id

/-- Teardown loop of McpRuntime.close() without an argument: every pool
entry is processed and removed. -/
def closeEntries : List (String × Nat) → PoolState → Except RtError PoolState
  | [], st => .ok st
  | (name, id) :: rest, st =>
    match closeCtxE st name id with
    | .ok st1 => closeEntries rest st1
    | .error e => .error e

/-- Models McpRuntime.close() for all servers. -/
def closeAllE (st : PoolState) : Except RtError PoolState :=
  closeEntries st.pool st

/-- Direct translation of registerDefinition: without overwrite an existing
name fails AlreadyExists; otherwise the definitions entry is replaced and
the pooled promise for the name is dropped from the cache, with no other
effect (message quote characters omitted). -/
def registerDefinitionOp (d : ServerDefinition) (overwrite : Bool) (st : PoolState) :
    Except RtError PoolState :=
  if !overwrite && (lookupA st.defs d.name).isSome then
    .error (.alreadyExists ("MCP server " ++ d.name ++ " already exists."))
  else
    .ok { st with defs := setA st.defs d.name d, pool := eraseA st.pool d.name }

/-- Pool entries only ever point at registered names; holds initially (empty
pool) and is preserved by every runtime operation. -/
def PoolSubsetDefs (st : PoolState) : Prop :=
  ∀ nm : String, (lookupA st.pool nm).isSome → (lookupA st.defs nm).isSome

/-! ### The connect cycle (McpRuntime.createClient / connectWithAuth)
The retry loop of createClient is embedded as a fuel-bounded iteration of a
single-pass function.  The behaviour of the external world (the SDK client
connect on each transport, the authorization-code future, token exchange) is
scripted per loop iteration by an AttemptScript for the streaming transport
and one for the SSE fallback; the interpreter is a literal transcription of
the control flow of the two source functions over those scripts. -/
/-- Scripted outcomes of one connect attempt through connectWithAuth:
result of client.connect on the given transport, whether that transport and
the internally rebuilt streamable transport expose finishAuth, the outcome
of the rebuilt connect, the settlement of the authorization-code future
(none scripts a future that never settles) and of finishAuth. -/
structure AttemptScript where
  connectResult : Option RtError
  transportHasFinishAuth : Bool
  retryConnectResult : Option RtError
  newTransportHasFinishAuth : Bool
  waitResult : Option (Except RtError String)
  finishAuthResult : Option RtError
  deriving Repr

/-- Scripts for one iteration of the createClient retry loop. -/
structure IterScript where
  streaming : AttemptScript
  sse : AttemptScript
  deriving Repr

/-- Side effects accumulated across the connect cycle: the OAuth session id
counter, the sessions created, the close calls issued on sessions, and the
sessions whose credentials were invalidated with scope all. -/
structure OEffects where
  nextSession : Nat
  createdSessions : List Nat
  closedSessions : List Nat
  invalidatedAll : List Nat
  deriving DecidableEq, Repr

/-- Result of one connectWithAuth call: a connected context carrying the
final session, a thrown error, or an unbounded suspension on the
authorization-code future. -/
inductive CwaResult where
  | okSession (finalSession : Option Nat)
  | failed (e : RtError)
  | hung
  deriving DecidableEq, Repr

/-- Records a session close (oauthSession?.close() with catch). -/
def closeSessionEff (session : Option Nat) (eff : OEffects) : OEffects :=
  match session with
  | none => eff
  | some sid => { eff with closedSessions := eff.closedSessions ++ [sid] }

/-- Direct transcription of McpRuntime.connectWithAuth.  On a successful
connect the passed session is returned.  On an Unauthorized failure with a
finishAuth-capable transport and maxOAuthAttempts not 0, the session is
created on demand if absent, all credentials are invalidated, the transport
is replaced by a fresh streamable transport and reconnected; a second
Unauthorized failure awaits the authorization-code future directly (there is
no timeout race here in the source), then finishAuth runs and the
OAuthTokensRefreshedError signal is thrown; otherwise errors are rethrown. -/
def connectWithAuthM (script : AttemptScript) (session : Option Nat)
    (defn : ServerDefinition) (maxOA : Option Nat) (eff : OEffects) :
    CwaResult × OEffects :=
  match script.connectResult with
  | none => (.okSession session, eff)
  | some e =>
    if isUnauthorizedError e && script.transportHasFinishAuth then
      if maxOA = some 0 then (.failed e, eff)
      else
        let (sid, eff1) :=
          match session with
          | some s => (s, eff)
          | none =>
            (eff.nextSession,
             { eff with nextSession := eff.nextSession + 1
                        createdSessions := eff.createdSessions ++ [eff.nextSession] })
        let eff2 := { eff1 with invalidatedAll := eff1.invalidatedAll ++ [sid] }
        match defn.command with
        | .stdioCmd _ => (.failed (.transportFailure "Expected HTTP command"), eff2)
        | .httpCmd _ =>
          match script.retryConnectResult with
          | none => (.okSession (some sid), eff2)
          | some e2 =>
            if isUnauthorizedError e2 && script.newTransportHasFinishAuth then
              match script.waitResult with
              | none => (.hung, eff2)
              | some (.error e3) => (.failed e3, eff2)
              | some (.ok _code) =>
                match script.finishAuthResult with
                | some e4 => (.failed e4, eff2)
                | none =>
                  (.failed (.tokensRefreshed "OAuth tokens refreshed, retry connection"), eff2)
            else (.failed e2, eff2)
    else (.failed e, eff)

/-- Overall outcome of the connect cycle as seen by the external caller. -/
inductive RunResult where
  | connected (activeName : String) (finalSession : Option Nat)
  | failed (e : RtError)
  | hung
  | outOfFuel
  deriving DecidableEq, Repr

/-- Outcome of one loop iteration: finish with a result, or continue. -/
inductive IterResult where
  | done (r : RunResult)
  | retry
  deriving DecidableEq, Repr

/-- State threaded through the connect cycle: the definitions Map of the
runtime (promotion writes to it), the OAuth session memo kept across
retries (existingOAuthSession), and the effect log. -/
structure RunState where
  defs : List (String × ServerDefinition)
  existingSession : Option Nat
  eff : OEffects
  deriving DecidableEq, Repr

/-- Session setup at the top of each loop iteration: reuse the session kept
across retries, otherwise create one when auth is oauth or the target is a
Craft URL (so cached tokens are available from the first attempt). -/
def ensureIterSession (active : ServerDefinition) (u : UrlInfo) (st : RunState) :
    Option Nat × RunState :=
  match st.existingSession with
  | some s => (some s, st)
  | none =>
    if active.auth = .oauth || isCraftUrl u then
      let sid := st.eff.nextSession
      (some sid,
       { st with existingSession := some sid
                 eff := { st.eff with nextSession := sid + 1
                                      createdSessions := st.eff.createdSessions ++ [sid] } })
    else (none, st)

/-- Direct transcription of the catch block around the primary (streaming)
attempt of createClient, followed by the SSE fallback.  In source order: an
OAuthTokensRefreshedError retries the loop; an Unauthorized error computes
maybeEnableOAuth and either retries on the promoted definition (writing it
to the definitions Map) when maxOAuthAttempts is not 0, or closes the OAuth
session; an OAuthTimeoutError closes the session and is rethrown; a Craft
URL skips the SSE fallback, closing the session and rethrowing; otherwise
the SSE transport is tried through connectWithAuth, whose failure closes
transport and session, rethrows a timeout, retries on promotion for a still
Unauthorized error when permitted, and otherwise rethrows. -/
def afterPrimary (active : ServerDefinition) (u : UrlInfo) (maxOA : Option Nat)
    (sse : AttemptScript) (oauthSession : Option Nat) (primaryError : RtError)
    (st : RunState) : IterResult × ServerDefinition × RunState :=
  if isTokensRefreshedErr primaryError then (.retry, active, st)
  else
    let unauthStep : Bool × ServerDefinition × RunState :=
      if isUnauthorizedError primaryError then
        match maybeEnableOAuth active with
        | some promoted =>
          if maxOA = some 0 then
            (false, active, { st with eff := closeSessionEff oauthSession st.eff })
          else
            (true, promoted, { st with defs := setA st.defs promoted.name promoted })
        | none => (false, active, { st with eff := closeSessionEff oauthSession st.eff })
      else (false, active, st)
    match unauthStep with
    | (true, active2, st2) => (.retry, active2, st2)
    | (false, active2, st2) =>
      if isOAuthTimeoutErr primaryError then
        (.done (.failed primaryError), active2,
         { st2 with eff := closeSessionEff oauthSession st2.eff })
      else if isCraftUrl u then
        (.done (.failed primaryError), active2,
         { st2 with eff := closeSessionEff oauthSession st2.eff })
      else
        match connectWithAuthM sse oauthSession active2 maxOA st2.eff with
        | (.okSession fs, eff2) =>
          (.done (.connected active2.name fs), active2, { st2 with eff := eff2 })
        | (.hung, eff2) => (.done .hung, active2, { st2 with eff := eff2 })
        | (.failed sseError, eff2) =>
          let st3 : RunState := { st2 with eff := closeSessionEff oauthSession eff2 }
          if isOAuthTimeoutErr sseError then (.done (.failed sseError), active2, st3)
          else if isUnauthorizedError sseError && !(maxOA = some 0) then
            match maybeEnableOAuth active2 with
            | some promoted =>
              (.retry, promoted, { st3 with defs := setA st3.defs promoted.name promoted })
            | none => (.done (.failed sseError), active2, st3)
          else (.done (.failed sseError), active2, st3)

/-- One iteration of the http branch of createClient: check the command is
still http, set up the OAuth session, run the streaming attempt through
connectWithAuth, and on failure run the catch logic of afterPrimary. -/
def runIteration (active : ServerDefinition) (maxOA : Option Nat) (script : IterScript)
    (st : RunState) : IterResult × ServerDefinition × RunState :=
  match active.command with
  | .stdioCmd _ =>
    (.done (.failed (.transportFailure
       ("Server " ++ active.name ++ " is not configured for HTTP transport."))), active, st)
  | .httpCmd u =>
    let (oauthSession, st1) := ensureIterSession active u st
    match connectWithAuthM script.streaming oauthSession active maxOA st1.eff with
    | (.okSession fs, eff1) =>
      (.done (.connected active.name fs), active, { st1 with eff := eff1 })
    | (.hung, eff1) => (.done .hung, active, { st1 with eff := eff1 })
    | (.failed primaryError, eff1) =>
      afterPrimary active u maxOA script.sse oauthSession primaryError
        { st1 with eff := eff1 }

/-- Fuel-bounded transcription of the while-true retry loop of
createClient; the world function scripts each iteration. -/
def createClientRun : Nat → (Nat → IterScript) → Nat → ServerDefinition → Option Nat →
    RunState → RunResult × RunState
  | 0, _, _, _, _, st => (.outOfFuel, st)
  | Nat.succ fuel, world, i, active, maxOA, st =>
    match runIteration active maxOA (world i) st with
    | (.done r, _, st2) => (r, st2)
    | (.retry, active2, st2) => createClientRun fuel world (i + 1) active2 maxOA st2

/-! ### The authorization-code timeout helper -/
/-- Settlement behaviour of the pending authorization-code future. -/
inductive FutureSpec where
  | resolvesAt (t : Nat) (code : String)
  | rejectsAt (t : Nat) (e : RtError)
  | neverSettles
  deriving Repr

/-- Default OAuth code timeout (DEFAULT_OAUTH_CODE_TIMEOUT_MS). -/
def defaultOAuthCodeTimeoutMs : Nat := 60000

/-- Direct transcription of waitForAuthorizationCodeWithTimeout over a
timed future: a non-positive timeout skips the race and awaits the future
plainly (never settling means suspending forever, the none result);
otherwise whichever of the future and the timer settles first decides, the
timer firing at timeoutMs with an OAuthTimeoutError carrying the display
name and the timeout.  The result pairs the settlement instant in
milliseconds with the outcome. -/
def waitForAuthorizationCodeWithTimeoutM (serverName : Option String) (timeoutMs : Nat)
    (fut : FutureSpec) : Option (Nat × Except RtError String) :=
  if timeoutMs = 0 then
    match fut with
    | .resolvesAt t c => some (t, .ok c)
    | .rejectsAt t e => some (t, .error e)
    | .neverSettles => none
  else
    let displayName := serverName.getD "unknown"
    match fut with
    | .neverSettles => some (timeoutMs, .error (.oauthTimeout displayName timeoutMs))
    | .resolvesAt t c =>
      if t < timeoutMs then some (t, .ok c)
      else some (timeoutMs, .error (.oauthTimeout displayName timeoutMs))
    | .rejectsAt t e =>
      if t < timeoutMs then some (t, .error e)
      else some (timeoutMs, .error (.oauthTimeout displayName timeoutMs))

/-! ### Helper lemmas for the credential store -/
/-- JavaScript truthiness of an optional scope list: defined and nonempty. -/
def optListNonempty : Option (List String) → Bool
  | some l => l.length > 0
  | none => false

/-! ### Helper lemmas for the connection pool -/
/-- Boolean success test on Except results. -/
def isOkE {ε α : Type} : Except ε α → Bool
  | .ok _ => true
  | .error _ => false

deriving instance DecidableEq for Except

/-- Definition used in the pool counterexamples. -/
def exampleHttpDef : ServerDefinition :=
  { name := "a"
    command := .httpCmd { hostname := "mcp.example.com", full := "https://mcp.example.com/mcp" } }

/-- Fresh pool state holding only exampleHttpDef. -/
def examplePoolState : PoolState :=
  { defs := [("a", exampleHttpDef)], pool := [], sessions := [], nextId := 0 }

/-- State produced by a successful overwrite registration: the definitions
entry replaced, the pooled promise dropped, sessions and counter untouched. -/
def registeredState (d : ServerDefinition) (st : PoolState) : PoolState :=
  { defs := setA st.defs d.name d
    pool := eraseA st.pool d.name
    sessions := st.sessions
    nextId := st.nextId }

/-- The promoted copy maybeEnableOAuth builds for an eligible definition. -/
def promotedOf (d : ServerDefinition) : ServerDefinition :=
  { d with auth := .oauth
           tokenCacheDir := some (d.tokenCacheDir.getD (craftTokenDir d.name)) }

/-- Non-Craft plain-http definition of the promotion scenario of the spec. -/
def workDef : ServerDefinition :=
  { name := "work"
    command := .httpCmd { hostname := "mcp.example.com", full := "https://mcp.example.com/mcp" }
    auth := .noAuth }

/-- Craft definition with auth oauth, as built by the Craft runtime layer. -/
def craftDef : ServerDefinition :=
  { name := "work"
    command := .httpCmd { hostname := "mcp.craft.do", full := "https://mcp.craft.do/links/S/mcp" }
    auth := .oauth }

/-- Empty effect log. -/
def emptyEffects : OEffects :=
  { nextSession := 0, createdSessions := [], closedSessions := [], invalidatedAll := [] }

/-- Initial connect-cycle state whose definitions table holds only d. -/
def startRunState (d : ServerDefinition) : RunState :=
  { defs := [(d.name, d)], existingSession := none, eff := emptyEffects }

/-- Attempt whose first connect fails Unauthorized on a transport without
finishAuth (so connectWithAuth rethrows). -/
def unauthorizedNoFinishScript : AttemptScript :=
  { connectResult := some (.unauthorized "HTTP 401"), transportHasFinishAuth := false
    retryConnectResult := none, newTransportHasFinishAuth := false
    waitResult := none, finishAuthResult := none }

/-- Attempt whose first connect fails Unauthorized on a finishAuth-capable
transport (connectWithAuth would handle it when permitted). -/
def unauthorizedFinishScript : AttemptScript :=
  { connectResult := some (.unauthorized "HTTP 401"), transportHasFinishAuth := true
    retryConnectResult := none, newTransportHasFinishAuth := false
    waitResult := none, finishAuthResult := none }

/-- Attempt driving the full interactive flow with a user who never
completes authorization: both connects fail Unauthorized on
finishAuth-capable transports and the authorization-code future never
settles. -/
def neverAuthorizedScript : AttemptScript :=
  { connectResult := some (.unauthorized "HTTP 401"), transportHasFinishAuth := true
    retryConnectResult := some (.unauthorized "HTTP 401"), newTransportHasFinishAuth := true
    waitResult := none, finishAuthResult := none }

/-- Attempt whose first connect fails with an OAuthTimeoutError. -/
def timeoutErrorScript : AttemptScript :=
  { connectResult := some (.oauthTimeout "work" 50), transportHasFinishAuth := true
    retryConnectResult := none, newTransportHasFinishAuth := false
    waitResult := none, finishAuthResult := none }

/-- World replaying the same scripts on every iteration. -/
def constWorld (s : AttemptScript) : Nat → IterScript :=
  fun _ => { streaming := s, sse := s }

theorem lookupA_setA_self {κ α : Type} [DecidableEq κ] (l : List (κ × α)) (k : κ) (v : α) :
    lookupA (setA l k v) k = some v := by
  induction l with
  | nil => simp [setA, lookupA]
  | cons hd tl ih =>
    obtain ⟨k2, v2⟩ := hd
    by_cases h : k2 = k
    · simp [setA, lookupA, h]
    · simp [setA, lookupA, h, ih]

theorem lookupA_setA_ne {κ α : Type} [DecidableEq κ] (l : List (κ × α)) (k k2 : κ) (v : α)
    (h : k2 ≠ k) : lookupA (setA l k v) k2 = lookupA l k2 := by
  have h2 : ¬(k = k2) := fun hh => h hh.symm
  induction l with
  | nil => simp [setA, lookupA, if_neg h2]
  | cons hd tl ih =>
    obtain ⟨k3, v3⟩ := hd
    by_cases h3 : k3 = k
    · subst h3
      simp [setA, lookupA, if_neg h2]
    · simp only [setA, if_neg h3]
      by_cases h4 : k3 = k2
      · simp [lookupA, h4]
      · simp [lookupA, h4, ih]

theorem lookupA_eraseA_self {κ α : Type} [DecidableEq κ] (l : List (κ × α)) (k : κ) :
    lookupA (eraseA l k) k = none := by
  induction l with
  | nil => simp [eraseA, lookupA]
  | cons hd tl ih =>
    obtain ⟨k2, v2⟩ := hd
    by_cases h : k2 = k
    · simpa [eraseA, List.filter, h] using ih
    · simpa [eraseA, List.filter, h, lookupA] using ih

theorem lookupA_eraseA_ne {κ α : Type} [DecidableEq κ] (l : List (κ × α)) (k k2 : κ)
    (h : k2 ≠ k) : lookupA (eraseA l k) k2 = lookupA l k2 := by
  have h2 : ¬(k = k2) := fun hh => h hh.symm
  induction l with
  | nil => simp [eraseA, lookupA]
  | cons hd tl ih =>
    obtain ⟨k3, v3⟩ := hd
    by_cases h3 : k3 = k
    · subst h3
      simpa [eraseA, List.filter, lookupA, if_neg h2] using ih
    · by_cases h4 : k3 = k2
      · subst h4
        simp [eraseA, List.filter, h3, lookupA]
      · simpa [eraseA, List.filter, h3, lookupA, h4] using ih

theorem lookupA_append_left {κ α : Type} [DecidableEq κ] (l l2 : List (κ × α)) (k : κ) (v : α)
    (h : lookupA l k = some v) : lookupA (l ++ l2) k = some v := by
  induction l with
  | nil => simp [lookupA] at h
  | cons hd tl ih =>
    obtain ⟨k2, v2⟩ := hd
    by_cases h2 : k2 = k
    · simp only [lookupA, if_pos h2] at h
      simp [lookupA, h2, h]
    · simp only [lookupA, if_neg h2] at h
      simp [lookupA, h2, ih h]

theorem credRemove_of_absent (store : CredStore) (p : CredPath)
    (h : credRead store p = none) : credRemove store p = store := by
  induction store with
  | nil => rfl
  | cons hd tl ih =>
    obtain ⟨p2, v⟩ := hd
    by_cases h2 : p2 = p
    · simp [credRead, h2] at h
    · simp only [credRead, if_neg h2] at h
      have := ih h
      simp only [credRemove, ne_eq, decide_not] at this ⊢
      simp [List.filter, h2, this]

theorem credRead_credRemove_self (store : CredStore) (p : CredPath) :
    credRead (credRemove store p) p = none := by
  induction store with
  | nil => rfl
  | cons hd tl ih =>
    obtain ⟨p2, v⟩ := hd
    by_cases h2 : p2 = p
    · simpa [credRemove, List.filter, h2] using ih
    · simpa [credRemove, List.filter, h2, credRead] using ih

theorem credRead_credRemove_ne (store : CredStore) (p q : CredPath) (h : q ≠ p) :
    credRead (credRemove store p) q = credRead store q := by
  have h2 : ¬(p = q) := fun hh => h hh.symm
  induction store with
  | nil => rfl
  | cons hd tl ih =>
    obtain ⟨p3, v⟩ := hd
    by_cases h3 : p3 = p
    · subst h3
      simpa [credRemove, List.filter, credRead, if_neg h2] using ih
    · by_cases h4 : p3 = q
      · subst h4
        simp [credRemove, List.filter, h3, credRead]
      · simpa [credRemove, List.filter, h3, credRead, h4] using ih

theorem tryUnlink_ok (store : CredStore) (p : CredPath) :
    tryUnlink store p = .ok (credRemove store p) := by
  unfold tryUnlink fsUnlink
  cases h : credRead store p with
  | none => simp [credRemove_of_absent store p h]
  | some v => simp

theorem unlinkAll_ok (ps : List CredPath) (store : CredStore) :
    unlinkAll store ps = .ok (ps.foldl credRemove store) := by
  induction ps generalizing store with
  | nil => rfl
  | cons p rest ih => simp [unlinkAll, tryUnlink_ok, List.foldl, ih]

theorem credRead_foldl_credRemove (ps : List CredPath) (store : CredStore) (q : CredPath) :
    credRead (ps.foldl credRemove store) q =
      if q ∈ ps then none else credRead store q := by
  induction ps generalizing store with
  | nil => simp
  | cons p rest ih =>
    by_cases hmem : q ∈ rest
    · simp [List.foldl, ih, hmem]
    · by_cases hq : q = p
      · subst hq
        simp [List.foldl, ih, hmem, credRead_credRemove_self]
      · simp [List.foldl, ih, hmem, hq, credRead_credRemove_ne store p q hq]

/-! ### Claim theorems -/
/-- C7: selectScopes obeys the priority chain: a captured (nonempty)
challenged scope string is split on spaces into its nonempty tokens;
otherwise a nonempty scopesSupported wins; otherwise a nonempty
protectedResourceScopes wins; otherwise no scope parameter is sent; the
three concrete cases of the spec hold, and no default scope is invented. -/
theorem C7_selectScopes_priority_chain :
    (∀ (cs : String) (ss prs : Option (List String)), cs ≠ "" →
       selectScopes (some cs) ss prs =
         some ((jsSplitSpace cs).filter (fun s => s.length > 0)))
    ∧ (∀ (l : List String) (prs : Option (List String)), l ≠ [] →
         selectScopes none (some l) prs = some l)
    ∧ (∀ (ss : Option (List String)) (l : List String),
         optListNonempty ss = false → l ≠ [] →
         selectScopes none ss (some l) = some l)
    ∧ (∀ (ss prs : Option (List String)),
         optListNonempty ss = false → optListNonempty prs = false →
         selectScopes none ss prs = none)
    ∧ selectScopes none (some ["a", "b"]) (some ["c"]) = some ["a", "b"]
    ∧ selectScopes none none (some ["c"]) = some ["c"]
    ∧ selectScopes none none none = none := by
  refine ⟨?_, ?_, ?_, ?_, by decide, by decide, by decide⟩
  · intro cs ss prs h
    simp [selectScopes, h]
  · intro l prs h
    simp [selectScopes, selectScopesRest, List.length_pos.mpr h]
  · intro ss l hss h
    cases ss with
    | none => simp [selectScopes, selectScopesRest, selectScopesRest2, List.length_pos.mpr h]
    | some l2 =>
      simp only [optListNonempty, gt_iff_lt, decide_eq_false_iff_not, not_lt,
        Nat.le_zero, List.length_eq_zero] at hss
      subst hss
      simp [selectScopes, selectScopesRest, selectScopesRest2, List.length_pos.mpr h]
  · intro ss prs hss hprs
    cases ss with
    | none =>
      cases prs with
      | none => rfl
      | some l2 =>
        simp only [optListNonempty, gt_iff_lt, decide_eq_false_iff_not, not_lt,
          Nat.le_zero, List.length_eq_zero] at hprs
        subst hprs
        rfl
    | some l =>
      simp only [optListNonempty, gt_iff_lt, decide_eq_false_iff_not, not_lt,
        Nat.le_zero, List.length_eq_zero] at hss
      subst hss
      cases prs with
      | none => rfl
      | some l2 =>
        simp only [optListNonempty, gt_iff_lt, decide_eq_false_iff_not, not_lt,
          Nat.le_zero, List.length_eq_zero] at hprs
        subst hprs
        rfl

/-- Witness for C7 at concrete inputs. -/
theorem C7_selectScopes_priority_chain_witness :
    selectScopes (some "read write") none none = some ["read", "write"]
    ∧ selectScopes none (some ["a", "b"]) (some ["c"]) = some ["a", "b"]
    ∧ selectScopes none (some []) (some ["c"]) = some ["c"]
    ∧ selectScopes none (some []) none = none :=
  ⟨C7_selectScopes_priority_chain.1 "read write" none none (by decide),
   C7_selectScopes_priority_chain.2.1 ["a", "b"] (some ["c"]) (by decide),
   C7_selectScopes_priority_chain.2.2.1 (some []) ["c"] (by decide) (by decide),
   C7_selectScopes_priority_chain.2.2.2.1 (some []) none (by decide) (by decide)⟩

/-- C9: invalidateCredentials deletes exactly the files its scope selects
(all covers tokens, client info and code verifier; each named scope only its
own file; the state file never), succeeds on any store including ones where
selected files are absent, and after scope all the tokens accessor reads
back nothing. -/
theorem C9_invalidateCredentials_exact :
    (∀ (dir : String) (scope : InvalidateScope) (store : CredStore),
       ∃ store2,
         invalidateCredentials dir scope store = .ok store2 ∧
         ∀ p : CredPath,
           credRead store2 p =
             if p ∈ invalidationPaths dir scope then none else credRead store p)
    ∧ (∀ (dir : String) (store : CredStore),
         ∃ store2,
           invalidateCredentials dir .all store = .ok store2 ∧
           tokensRead dir store2 = none) := by
  constructor
  · intro dir scope store
    refine ⟨(invalidationPaths dir scope).foldl credRemove store, ?_, ?_⟩
    · simp [invalidateCredentials, unlinkAll_ok]
    · intro p
      exact credRead_foldl_credRemove _ store p
  · intro dir store
    refine ⟨(invalidationPaths dir .all).foldl credRemove store, ?_, ?_⟩
    · simp [invalidateCredentials, unlinkAll_ok]
    · have h := credRead_foldl_credRemove (invalidationPaths dir .all) store (tokenPath dir)
      simp only [tokensRead]
      rw [h]
      simp [invalidationPaths]

/-- C8: on the callback path a truthy code parameter resolves the pending
future with that code, else a truthy error parameter rejects it with a
message containing the error value, else it rejects with the missing-code
message; each branch writes exactly one HTTP response. -/
theorem C8_callback_dispatch :
    (∀ (path : String) (q : List (String × String)) (c : String),
       strStartsWith path "/callback" = true →
       getQueryParam q "code" = some c → c ≠ "" →
       handleCallbackRequest ⟨path, q⟩ true =
         ⟨[⟨200, successHtml⟩], .resolved c, false⟩)
    ∧ (∀ (path : String) (q : List (String × String)) (e : String),
         strStartsWith path "/callback" = true →
         (getQueryParam q "code" = none ∨ getQueryParam q "code" = some "") →
         getQueryParam q "error" = some e → e ≠ "" →
         handleCallbackRequest ⟨path, q⟩ true =
           ⟨[⟨400, failureHtml e⟩], .rejected ("OAuth error: " ++ e), false⟩
         ∧ ∃ pre suf, "OAuth error: " ++ e = pre ++ e ++ suf)
    ∧ (∀ (path : String) (q : List (String × String)),
         strStartsWith path "/callback" = true →
         (getQueryParam q "code" = none ∨ getQueryParam q "code" = some "") →
         (getQueryParam q "error" = none ∨ getQueryParam q "error" = some "") →
         handleCallbackRequest ⟨path, q⟩ true =
           ⟨[⟨400, "Missing authorization code"⟩],
            .rejected "Missing authorization code", false⟩)
    ∧ (∀ (path : String) (q : List (String × String)) (pending : Bool),
         strStartsWith path "/callback" = true →
         (handleCallbackRequest ⟨path, q⟩ pending).responses.length = 1) := by
  refine ⟨?_, ?_, ?_, ?_⟩
  · intro path q c hpath hcode hne
    simp [handleCallbackRequest, hpath, hcode, hne]
  · intro path q e hpath hcode herr hne
    refine ⟨?_, "OAuth error: ", "", by simp⟩
    rcases hcode with hcode | hcode <;>
      simp [handleCallbackRequest, hpath, hcode, handleCallbackRequest.handleNoCode, herr, hne]
  · intro path q hpath hcode herr
    rcases hcode with hcode | hcode <;> rcases herr with herr | herr <;>
      simp [handleCallbackRequest, hpath, hcode, handleCallbackRequest.handleNoCode, herr]
  · intro path q pending hpath
    simp only [handleCallbackRequest, hpath, Bool.not_true, Bool.false_eq_true, if_false]
    cases hcode : getQueryParam q "code" with
    | some c =>
      by_cases hc : c = ""
      · subst hc
        simp only [if_pos rfl]
        cases herr : getQueryParam q "error" with
        | some e =>
          by_cases he : e = "" <;>
            simp [handleCallbackRequest.handleNoCode, herr, he]
        | none => simp [handleCallbackRequest.handleNoCode, herr]
      · simp [hc]
    | none =>
      cases herr : getQueryParam q "error" with
      | some e =>
        by_cases he : e = "" <;>
          simp [handleCallbackRequest.handleNoCode, herr, he]
      | none => simp [handleCallbackRequest.handleNoCode, herr]

/-- Witness for C8 at concrete redirects. -/
theorem C8_callback_dispatch_witness :
    handleCallbackRequest ⟨"/callback", [("code", "ABC")]⟩ true =
      ⟨[⟨200, successHtml⟩], .resolved "ABC", false⟩
    ∧ handleCallbackRequest ⟨"/callback", [("error", "access_denied")]⟩ true =
        ⟨[⟨400, failureHtml "access_denied"⟩], .rejected "OAuth error: access_denied", false⟩
    ∧ handleCallbackRequest ⟨"/callback", []⟩ true =
        ⟨[⟨400, "Missing authorization code"⟩], .rejected "Missing authorization code", false⟩
    ∧ (handleCallbackRequest ⟨"/callback", [("error", "access_denied")]⟩ true).responses.length = 1 :=
  ⟨C8_callback_dispatch.1 "/callback" [("code", "ABC")] "ABC" (by decide) rfl (by decide),
   (C8_callback_dispatch.2.1 "/callback" [("error", "access_denied")] "access_denied"
      (by decide) (Or.inl rfl) rfl (by decide)).1,
   C8_callback_dispatch.2.2.1 "/callback" [] (by decide) (Or.inl rfl) (Or.inl rfl),
   C8_callback_dispatch.2.2.2 "/callback" [("error", "access_denied")] true (by decide)⟩

theorem connectStart_cached (st : PoolState) (name : String) (id : Nat)
    (h : lookupA st.pool (jsTrim name) = some id) :
    connectStart false name st = (.ok (id, false), st) := by
  simp [connectStart, h]

theorem connectStart_fresh (st : PoolState) (name : String) (d : ServerDefinition)
    (hpool : lookupA st.pool (jsTrim name) = none)
    (hdefs : lookupA st.defs (jsTrim name) = some d) :
    connectStart false name st =
      (.ok (st.nextId, true),
       { defs := st.defs
         pool := setA st.pool (jsTrim name) st.nextId
         sessions := st.sessions ++ [(st.nextId, freshSession)]
         nextId := st.nextId + 1 }) := by
  simp [connectStart, hpool, hdefs]

theorem connectStart_missing (st : PoolState) (name : String)
    (hpool : lookupA st.pool (jsTrim name) = none)
    (hdefs : lookupA st.defs (jsTrim name) = none) :
    connectStart false name st = (.error (.notFound (unknownServerMsg (jsTrim name))), st) := by
  simp [connectStart, hpool, hdefs]

theorem connectMany_cached (k : Nat) (st : PoolState) (name : String) (id : Nat)
    (h : lookupA st.pool (jsTrim name) = some id) :
    connectMany k name st = (List.replicate k (.ok id), st) := by
  induction k with
  | zero => rfl
  | succ n ih =>
    simp [connectMany, connectStart_cached st name id h, ih, List.replicate, Except.map]

/-! ### Claim theorems for the pool -/
/-- C1: against a name with no pooled entry, any number of concurrent
connect requests (issued by listTools, callTool or connect, all of which
use the cache) share one memoized in-flight attempt: the first request
allocates exactly one new session and memoizes its promise before any
suspension point, every request receives that same promise, and a name
that is already pooled hands out its existing promise unchanged.  The
synchronous stretch of connect from cache lookup to cache set contains no
await, so concurrent callers interleave only at whole-step granularity. -/
theorem C1_single_pooled_session_per_name :
    (∀ (st : PoolState) (name : String) (d : ServerDefinition) (k : Nat),
       lookupA st.pool (jsTrim name) = none →
       lookupA st.defs (jsTrim name) = some d →
       (connectMany (k + 1) name st).1 = List.replicate (k + 1) (.ok st.nextId)
       ∧ lookupA (connectMany (k + 1) name st).2.pool (jsTrim name) = some st.nextId
       ∧ (connectMany (k + 1) name st).2.nextId = st.nextId + 1
       ∧ (connectMany (k + 1) name st).2.sessions = st.sessions ++ [(st.nextId, freshSession)])
    ∧ (∀ (st : PoolState) (name : String) (id k : Nat),
         lookupA st.pool (jsTrim name) = some id →
         connectMany k name st = (List.replicate k (.ok id), st)) := by
  constructor
  · intro st name d k hpool hdefs
    have hstep := connectStart_fresh st name d hpool hdefs
    have hcached :
        lookupA (setA st.pool (jsTrim name) st.nextId) (jsTrim name) = some st.nextId :=
      lookupA_setA_self st.pool (jsTrim name) st.nextId
    have hrest := connectMany_cached k
      { defs := st.defs
        pool := setA st.pool (jsTrim name) st.nextId
        sessions := st.sessions ++ [(st.nextId, freshSession)]
        nextId := st.nextId + 1 } name st.nextId hcached
    refine ⟨?_, ?_, ?_, ?_⟩ <;>
      simp [connectMany, hstep, hrest, List.replicate, hcached, Except.map]
  · intro st name id k h
    exact connectMany_cached k st name id h

/-- Witness for C1: three concurrent connects against a fresh name all
receive promise 5 and exactly one session is allocated. -/
theorem C1_single_pooled_session_per_name_witness :
    (connectMany 3 "work"
        { defs := [("work", { name := "work"
                              command := .httpCmd { hostname := "mcp.example.com"
                                                    full := "https://mcp.example.com/mcp" } })]
          pool := []
          sessions := []
          nextId := 5 }).1 = [.ok 5, .ok 5, .ok 5] :=
  (C1_single_pooled_session_per_name.1
    { defs := [("work", { name := "work"
                          command := .httpCmd { hostname := "mcp.example.com"
                                                full := "https://mcp.example.com/mcp" } })]
      pool := []
      sessions := []
      nextId := 5 }
    "work"
    { name := "work"
      command := .httpCmd { hostname := "mcp.example.com"
                            full := "https://mcp.example.com/mcp" } }
    2 (by decide) (by decide)).1

/-- C5 counterexample: listTools with autoAuthorize false issues the
connect with skipCache false (and maxOAuthAttempts 0), so on a cache miss
the connect is memoized: after a successful call the shared cache entry for
the name is populated, contradicting the claimed non-memoized throwaway
connect that would leave the shared entry untouched. -/
theorem C5_counterexample_cache_populated :
    listToolsConnectOptions false = (some 0, false)
    ∧ (connectOp false true "a" examplePoolState).1 = .ok 0
    ∧ lookupA (connectOp false true "a" examplePoolState).2.pool "a" = some 0 := by
  refine ⟨rfl, ?_, ?_⟩ <;> decide

/-- C5 amended: the autoAuthorize false path of listTools shares the
memoized cache (skipCache is false): a cache hit returns the pooled promise
with the state unchanged, so an authorized cached session is never evicted
or replaced; a cache miss memoizes the fresh attempt, populating the shared
entry on success and removing it again on failure. -/
theorem C5_amended_listTools_uses_shared_cache :
    (∀ (st : PoolState) (name : String) (id : Nat) (succeeds : Bool),
       lookupA st.pool (jsTrim name) = some id →
       connectOp false succeeds name st = (.ok id, st))
    ∧ (∀ (st : PoolState) (name : String) (d : ServerDefinition),
         lookupA st.pool (jsTrim name) = none →
         lookupA st.defs (jsTrim name) = some d →
         (connectOp false true name st).1 = .ok st.nextId
         ∧ lookupA (connectOp false true name st).2.pool (jsTrim name) = some st.nextId)
    ∧ (∀ (st : PoolState) (name : String) (d : ServerDefinition),
         lookupA st.pool (jsTrim name) = none →
         lookupA st.defs (jsTrim name) = some d →
         (connectOp false false name st).1 = .error (.transportFailure "connect failed")
         ∧ lookupA (connectOp false false name st).2.pool (jsTrim name) = none) := by
  refine ⟨?_, ?_, ?_⟩
  · intro st name id succeeds h
    simp [connectOp, connectStart_cached st name id h]
  · intro st name d hpool hdefs
    constructor <;>
      simp [connectOp, connectStart_fresh st name d hpool hdefs, lookupA_setA_self]
  · intro st name d hpool hdefs
    constructor <;>
      simp [connectOp, connectStart_fresh st name d hpool hdefs, lookupA_eraseA_self]

/-- Witness for C5 amended at concrete states. -/
theorem C5_amended_listTools_uses_shared_cache_witness :
    connectOp false true "a"
        { defs := [("a", exampleHttpDef)], pool := [("a", 7)], sessions := [(7, {})], nextId := 8 }
      = (.ok 7,
         { defs := [("a", exampleHttpDef)], pool := [("a", 7)], sessions := [(7, {})], nextId := 8 })
    ∧ lookupA (connectOp false false "a" examplePoolState).2.pool (jsTrim "a") = none :=
  ⟨C5_amended_listTools_uses_shared_cache.1
     { defs := [("a", exampleHttpDef)], pool := [("a", 7)], sessions := [(7, {})], nextId := 8 }
     "a" 7 true (by decide),
   (C5_amended_listTools_uses_shared_cache.2.2 examplePoolState "a" exampleHttpDef
     (by decide) (by decide)).2⟩

theorem catchIgnore_bind {α : Type} (r : Except RtError Unit) (f : Unit → Except RtError α) :
    (catchIgnore r >>= f) = f () := rfl

theorem closeCtxE_isOk (st : PoolState) (key : String) (id : Nat) :
    isOkE (closeCtxE st key id) = true := by
  unfold closeCtxE
  cases lookupA st.sessions id <;> rfl

theorem closeCtxE_pool (st : PoolState) (key : String) (id : Nat) (st2 : PoolState)
    (h : closeCtxE st key id = .ok st2) : st2.pool = eraseA st.pool key := by
  unfold closeCtxE at h
  cases hs : lookupA st.sessions id <;> rw [hs] at h <;>
    simp only [catchIgnore_bind, Except.ok.injEq] at h <;> subst h <;> rfl

theorem closeCtxE_exists_ok (st : PoolState) (key : String) (id : Nat) :
    ∃ st2, closeCtxE st key id = .ok st2 := by
  unfold closeCtxE
  cases lookupA st.sessions id with
  | none => exact ⟨_, rfl⟩
  | some s => exact ⟨_, rfl⟩

/-- C6: for a name absent from the definitions table (and hence, since pool
entries only exist for registered names, absent from the pool), the connect
performed by listTools and callTool fails NotFound with the
unknown-server message, and close of that name is a no-op returning the
state unchanged; close never throws for any argument, pooled or not, with
the close-all variant likewise, and close of one name is idempotent. -/
theorem C6_unknown_name_and_idempotent_close :
    (∀ (st : PoolState) (name : String) (succeeds : Bool),
       PoolSubsetDefs st →
       lookupA st.defs (jsTrim name) = none →
       (connectOp false succeeds name st).1 =
         .error (.notFound (unknownServerMsg (jsTrim name)))
       ∧ closeOneE name st = .ok st)
    ∧ (∀ (st : PoolState) (name : String), isOkE (closeOneE name st) = true)
    ∧ (∀ st : PoolState, isOkE (closeAllE st) = true)
    ∧ (∀ (st st2 : PoolState) (name : String),
         closeOneE name st = .ok st2 → closeOneE name st2 = .ok st2) := by
  have hall : ∀ (entries : List (String × Nat)) (st : PoolState),
      isOkE (closeEntries entries st) = true := by
    intro entries
    induction entries with
    | nil => intro st; rfl
    | cons hd tl ih =>
      intro st
      obtain ⟨name, id⟩ := hd
      obtain ⟨st1, h1⟩ := closeCtxE_exists_ok st name id
      simp [closeEntries, h1, ih]
  refine ⟨?_, ?_, ?_, ?_⟩
  · intro st name succeeds hsub hdefs
    have hpool : lookupA st.pool (jsTrim name) = none := by
      cases hp : lookupA st.pool (jsTrim name) with
      | none => rfl
      | some id =>
        have := hsub (jsTrim name) (by simp [hp])
        simp [hdefs] at this
    constructor
    · simp [connectOp, connectStart_missing st name hpool hdefs]
    · simp [closeOneE, hpool]
  · intro st name
    unfold closeOneE
    cases hp : lookupA st.pool (jsTrim name) with
    | none => rfl
    | some id => exact closeCtxE_isOk st (jsTrim name) id
  · intro st
    exact hall st.pool st
  · intro st st2 name h
    unfold closeOneE at h
    cases hp : lookupA st.pool (jsTrim name) with
    | none =>
      rw [hp] at h
      simp only [Except.ok.injEq] at h
      subst h
      simp [closeOneE, hp]
    | some id =>
      rw [hp] at h
      have hpool2 : lookupA st2.pool (jsTrim name) = none := by
        rw [closeCtxE_pool st (jsTrim name) id st2 h]
        exact lookupA_eraseA_self st.pool (jsTrim name)
      simp [closeOneE, hpool2]

/-- Witness for C6 at a concrete unknown name and a pooled state whose
teardown steps all fail (close still succeeds). -/
theorem C6_unknown_name_and_idempotent_close_witness :
    (connectOp false true "ghost" examplePoolState).1 =
      .error (.notFound (unknownServerMsg (jsTrim "ghost")))
    ∧ closeOneE "ghost" examplePoolState = .ok examplePoolState
    ∧ isOkE (closeOneE "a"
        { defs := [("a", exampleHttpDef)]
          pool := [("a", 0)]
          sessions := [(0, { closed := false, oauthClosed := false, clientCloseFails := true
                             transportCloseFails := true, oauthCloseFails := true })]
          nextId := 1 }) = true :=
  have hsub : PoolSubsetDefs examplePoolState := by
    intro nm h
    simp [examplePoolState, lookupA] at h
  ⟨(C6_unknown_name_and_idempotent_close.1 examplePoolState "ghost" true hsub (by decide)).1,
   (C6_unknown_name_and_idempotent_close.1 examplePoolState "ghost" true hsub (by decide)).2,
   C6_unknown_name_and_idempotent_close.2.1
     { defs := [("a", exampleHttpDef)]
       pool := [("a", 0)]
       sessions := [(0, { closed := false, oauthClosed := false, clientCloseFails := true
                          transportCloseFails := true, oauthCloseFails := true })]
       nextId := 1 } "a"⟩

/-- C10: overwriting registration of a definition whose name has a live
pooled session replaces the definitions entry and drops the pooled promise
without touching the session heap (no transport close, no OAuth listener
close, the evicted session object survives unmodified), without allocating
any connection; a subsequent connect then builds a fresh session with a new
promise id while the evicted session object is still present unclosed. -/
theorem C10_overwrite_evicts_without_closing :
    ∀ (st : PoolState) (d : ServerDefinition) (id : Nat) (s : SessionObj),
      jsTrim d.name = d.name →
      lookupA st.pool d.name = some id →
      lookupA st.sessions id = some s →
      id < st.nextId →
      registerDefinitionOp d true st = .ok (registeredState d st)
      ∧ lookupA (registeredState d st).defs d.name = some d
      ∧ lookupA (registeredState d st).pool d.name = none
      ∧ (registeredState d st).sessions = st.sessions
      ∧ (registeredState d st).nextId = st.nextId
      ∧ st.nextId ≠ id
      ∧ (connectOp false true d.name (registeredState d st)).1 = .ok st.nextId
      ∧ lookupA (connectOp false true d.name (registeredState d st)).2.pool d.name =
          some st.nextId
      ∧ lookupA (connectOp false true d.name (registeredState d st)).2.sessions id = some s := by
  intro st d id s htrim hpool hsess hlt
  have hpool2 : lookupA (registeredState d st).pool (jsTrim d.name) = none := by
    rw [htrim]
    exact lookupA_eraseA_self st.pool d.name
  have hdefs2 : lookupA (registeredState d st).defs (jsTrim d.name) = some d := by
    rw [htrim]
    exact lookupA_setA_self st.defs d.name d
  have hfresh := connectStart_fresh (registeredState d st) d.name d hpool2 hdefs2
  refine ⟨?_, ?_, ?_, ?_, ?_, ?_, ?_, ?_, ?_⟩
  · simp [registerDefinitionOp, registeredState]
  · exact lookupA_setA_self st.defs d.name d
  · exact lookupA_eraseA_self st.pool d.name
  · rfl
  · rfl
  · exact (Nat.ne_of_lt hlt).symm
  · simp only [connectOp, hfresh]
    rfl
  · simp only [connectOp, hfresh]
    rw [htrim]
    exact lookupA_setA_self _ _ _
  · simp only [connectOp, hfresh]
    exact lookupA_append_left _ _ id s hsess

/-- Witness for C10: overwriting the definition of a name with a live
pooled session evicts the pool entry while session object 0 stays open. -/
theorem C10_overwrite_evicts_without_closing_witness :
    registerDefinitionOp { exampleHttpDef with auth := .oauth } true
        { defs := [("a", exampleHttpDef)]
          pool := [("a", 0)]
          sessions := [(0, freshSession)]
          nextId := 1 }
      = .ok (registeredState { exampleHttpDef with auth := .oauth }
          { defs := [("a", exampleHttpDef)]
            pool := [("a", 0)]
            sessions := [(0, freshSession)]
            nextId := 1 })
    ∧ lookupA (connectOp false true "a"
        (registeredState { exampleHttpDef with auth := .oauth }
          { defs := [("a", exampleHttpDef)]
            pool := [("a", 0)]
            sessions := [(0, freshSession)]
            nextId := 1 })).2.sessions 0 = some freshSession :=
  have h := C10_overwrite_evicts_without_closing
    { defs := [("a", exampleHttpDef)]
      pool := [("a", 0)]
      sessions := [(0, freshSession)]
      nextId := 1 }
    { exampleHttpDef with auth := .oauth } 0 freshSession
    (by decide) (by decide) (by decide) (by decide)
  ⟨h.1, h.2.2.2.2.2.2.2.2⟩

theorem connectWithAuthM_rethrow_noFinish (script : AttemptScript) (session : Option Nat)
    (defn : ServerDefinition) (maxOA : Option Nat) (eff : OEffects) (e : RtError)
    (h : script.connectResult = some e) (h2 : script.transportHasFinishAuth = false) :
    connectWithAuthM script session defn maxOA eff = (.failed e, eff) := by
  simp [connectWithAuthM, h, h2]

theorem connectWithAuthM_rethrow_maxZero (script : AttemptScript) (session : Option Nat)
    (defn : ServerDefinition) (eff : OEffects) (e : RtError)
    (h : script.connectResult = some e) :
    connectWithAuthM script session defn (some 0) eff = (.failed e, eff) := by
  simp only [connectWithAuthM, h]
  split
  · simp
  · rfl

theorem connectWithAuthM_rethrow_notAuth (script : AttemptScript) (session : Option Nat)
    (defn : ServerDefinition) (maxOA : Option Nat) (eff : OEffects) (e : RtError)
    (h : script.connectResult = some e) (h2 : isUnauthorizedError e = false) :
    connectWithAuthM script session defn maxOA eff = (.failed e, eff) := by
  simp [connectWithAuthM, h, h2]

theorem connectWithAuthM_tokensRefreshed (script : AttemptScript) (session : Option Nat)
    (defn : ServerDefinition) (u : UrlInfo) (maxOA : Option Nat) (eff : OEffects)
    (m1 m2 code : String)
    (hcmd : defn.command = .httpCmd u)
    (h1 : script.connectResult = some (.unauthorized m1))
    (h2 : script.transportHasFinishAuth = true)
    (h3 : script.retryConnectResult = some (.unauthorized m2))
    (h4 : script.newTransportHasFinishAuth = true)
    (h5 : script.waitResult = some (.ok code))
    (h6 : script.finishAuthResult = none)
    (hmax : maxOA ≠ some 0) :
    ∃ eff2, connectWithAuthM script session defn maxOA eff =
      (.failed (.tokensRefreshed "OAuth tokens refreshed, retry connection"), eff2) := by
  cases session with
  | none =>
    refine ⟨{ eff with nextSession := eff.nextSession + 1
                       createdSessions := eff.createdSessions ++ [eff.nextSession]
                       invalidatedAll := eff.invalidatedAll ++ [eff.nextSession] }, ?_⟩
    simp [connectWithAuthM, hcmd, h1, h2, h3, h4, h5, h6, hmax, isUnauthorizedError]
  | some sid =>
    refine ⟨{ eff with invalidatedAll := eff.invalidatedAll ++ [sid] }, ?_⟩
    simp [connectWithAuthM, hcmd, h1, h2, h3, h4, h5, h6, hmax, isUnauthorizedError]

theorem connectWithAuthM_hangs (script : AttemptScript) (session : Option Nat)
    (defn : ServerDefinition) (u : UrlInfo) (maxOA : Option Nat) (eff : OEffects)
    (m1 m2 : String)
    (hcmd : defn.command = .httpCmd u)
    (h1 : script.connectResult = some (.unauthorized m1))
    (h2 : script.transportHasFinishAuth = true)
    (h3 : script.retryConnectResult = some (.unauthorized m2))
    (h4 : script.newTransportHasFinishAuth = true)
    (h5 : script.waitResult = none)
    (hmax : maxOA ≠ some 0) :
    ∃ eff2, connectWithAuthM script session defn maxOA eff = (.hung, eff2) := by
  cases session with
  | none =>
    refine ⟨{ eff with nextSession := eff.nextSession + 1
                       createdSessions := eff.createdSessions ++ [eff.nextSession]
                       invalidatedAll := eff.invalidatedAll ++ [eff.nextSession] }, ?_⟩
    simp [connectWithAuthM, hcmd, h1, h2, h3, h4, h5, hmax, isUnauthorizedError]
  | some sid =>
    refine ⟨{ eff with invalidatedAll := eff.invalidatedAll ++ [sid] }, ?_⟩
    simp [connectWithAuthM, hcmd, h1, h2, h3, h4, h5, hmax, isUnauthorizedError]

theorem maybeEnableOAuth_of_oauth (d : ServerDefinition) (h : d.auth = .oauth) :
    maybeEnableOAuth d = none := by
  simp [maybeEnableOAuth, h]

theorem runIteration_failed (active : ServerDefinition) (u : UrlInfo) (maxOA : Option Nat)
    (script : IterScript) (st st1 : RunState) (sess : Option Nat) (e : RtError)
    (eff1 : OEffects)
    (hcmd : active.command = .httpCmd u)
    (hs : ensureIterSession active u st = (sess, st1))
    (hcwa : connectWithAuthM script.streaming sess active maxOA st1.eff = (.failed e, eff1)) :
    runIteration active maxOA script st =
      afterPrimary active u maxOA script.sse sess e { st1 with eff := eff1 } := by
  simp [runIteration, hcmd, hs, hcwa]

theorem afterPrimary_promote (active : ServerDefinition) (u : UrlInfo) (maxOA : Option Nat)
    (sse : AttemptScript) (sess : Option Nat) (m : String) (st : RunState)
    (p : ServerDefinition)
    (hpromote : maybeEnableOAuth active = some p) (hmax : maxOA ≠ some 0) :
    afterPrimary active u maxOA sse sess (.unauthorized m) st =
      (.retry, p, { st with defs := setA st.defs p.name p }) := by
  simp [afterPrimary, isTokensRefreshedErr, isUnauthorizedError, hpromote, hmax]

theorem afterPrimary_unauthorized_craft (active : ServerDefinition) (u : UrlInfo)
    (maxOA : Option Nat) (sse : AttemptScript) (sess : Option Nat) (m : String)
    (st : RunState)
    (hnone : maybeEnableOAuth active = none) (hcraft : isCraftUrl u = true) :
    (afterPrimary active u maxOA sse sess (.unauthorized m) st).1 =
      .done (.failed (.unauthorized m)) := by
  simp [afterPrimary, isTokensRefreshedErr, isUnauthorizedError, hnone, isOAuthTimeoutErr,
    hcraft]

theorem afterPrimary_tokensRefreshed_retry (active : ServerDefinition) (u : UrlInfo)
    (maxOA : Option Nat) (sse : AttemptScript) (sess : Option Nat) (m : String)
    (st : RunState) :
    afterPrimary active u maxOA sse sess (.tokensRefreshed m) st = (.retry, active, st) := by
  simp [afterPrimary, isTokensRefreshedErr]

theorem afterPrimary_sse_tokensRefreshed (active : ServerDefinition) (u : UrlInfo)
    (maxOA : Option Nat) (sse : AttemptScript) (sess : Option Nat) (m0 : String)
    (st : RunState) (m1 m2 code : String)
    (hcmd : active.command = .httpCmd u)
    (hcraft : isCraftUrl u = false)
    (h1 : sse.connectResult = some (.unauthorized m1))
    (h2 : sse.transportHasFinishAuth = true)
    (h3 : sse.retryConnectResult = some (.unauthorized m2))
    (h4 : sse.newTransportHasFinishAuth = true)
    (h5 : sse.waitResult = some (.ok code))
    (h6 : sse.finishAuthResult = none)
    (hmax : maxOA ≠ some 0) :
    (afterPrimary active u maxOA sse sess (.transportFailure m0) st).1 =
      .done (.failed (.tokensRefreshed "OAuth tokens refreshed, retry connection")) := by
  obtain ⟨eff2, hsse⟩ := connectWithAuthM_tokensRefreshed sse sess active u maxOA st.eff
    m1 m2 code hcmd h1 h2 h3 h4 h5 h6 hmax
  simp [afterPrimary, isTokensRefreshedErr, isUnauthorizedError, isOAuthTimeoutErr, hcraft,
    hsse]

/-- C2 counterexample: the end-to-end promotion scenario of the spec on the
non-Craft definition work at https://mcp.example.com/mcp with auth none:
every connect attempt is classified Unauthorized and auto-authorization is
permitted (maxOAuthAttempts undefined), yet maybeEnableOAuth declines the
definition (neither adhoc-source nor a Craft hostname), so no promotion
happens, no OAuth session is created, and after the call fails the
definitions table still carries auth none for work. -/
theorem C2_counterexample_no_promotion_for_foreign_url :
    (createClientRun 3 (constWorld unauthorizedNoFinishScript) 0 workDef none
        (startRunState workDef)).1 = .failed (.unauthorized "HTTP 401")
    ∧ lookupA (createClientRun 3 (constWorld unauthorizedNoFinishScript) 0 workDef none
        (startRunState workDef)).2.defs "work" = some workDef
    ∧ workDef.auth = .noAuth
    ∧ (createClientRun 3 (constWorld unauthorizedNoFinishScript) 0 workDef none
        (startRunState workDef)).2.eff.createdSessions = []
    ∧ maybeEnableOAuth workDef = none := by
  refine ⟨?_, ?_, rfl, ?_, ?_⟩ <;> decide

/-- C2 amended: promotion happens only for definitions that are
adhoc-source or whose URL hostname ends in .craft.do or .luki.io; for such
an http definition not yet on oauth, an Unauthorized connect failure
reaching the retry handler with maxOAuthAttempts not 0 replaces the
definitions-table entry in place with the oauth-promoted copy and retries
the loop; for any other definition maybeEnableOAuth yields nothing and the
table entry is left as it was. -/
theorem C2_amended_promotion_only_adhoc_or_craft :
    (∀ (active : ServerDefinition) (u : UrlInfo),
       active.command = .httpCmd u →
       isAdHocSource active = false → isCraftUrl u = false →
       maybeEnableOAuth active = none)
    ∧ (∀ (active : ServerDefinition) (u : UrlInfo) (maxOA : Option Nat)
         (script : IterScript) (st : RunState) (m : String),
         active.command = .httpCmd u →
         active.auth ≠ .oauth →
         (isAdHocSource active = true ∨ isCraftUrl u = true) →
         maxOA ≠ some 0 →
         script.streaming.connectResult = some (.unauthorized m) →
         script.streaming.transportHasFinishAuth = false →
         ∃ st2,
           runIteration active maxOA script st = (.retry, promotedOf active, st2)
           ∧ maybeEnableOAuth active = some (promotedOf active)
           ∧ (promotedOf active).auth = .oauth
           ∧ (promotedOf active).name = active.name
           ∧ lookupA st2.defs active.name = some (promotedOf active)) := by
  constructor
  · intro active u hcmd hadhoc hcraft
    by_cases hauth : active.auth = .oauth
    · simp [maybeEnableOAuth, hauth]
    · simp [maybeEnableOAuth, hauth, hcmd, hadhoc, hcraft]
  · intro active u maxOA script st m hcmd hauth hcond hmax hconn hfin
    have hpromote : maybeEnableOAuth active = some (promotedOf active) := by
      rcases hcond with hc | hc <;>
        simp [maybeEnableOAuth, hauth, hcmd, hc, promotedOf]
    obtain ⟨sess, st1, h1⟩ : ∃ sess st1, ensureIterSession active u st = (sess, st1) :=
      ⟨_, _, rfl⟩
    have hcwa := connectWithAuthM_rethrow_noFinish script.streaming sess active maxOA
      st1.eff (.unauthorized m) hconn hfin
    have hrun := runIteration_failed active u maxOA script st st1 sess
      (.unauthorized m) st1.eff hcmd h1 hcwa
    have hafter := afterPrimary_promote active u maxOA script.sse sess m
      { st1 with eff := st1.eff } (promotedOf active) hpromote hmax
    refine ⟨{ st1 with defs := setA st1.defs (promotedOf active).name (promotedOf active) },
      ?_, hpromote, rfl, rfl, ?_⟩
    · rw [hrun, hafter]
    · exact lookupA_setA_self st1.defs (promotedOf active).name (promotedOf active)

/-- Witness for C2 amended at a concrete Craft definition with auth none. -/
theorem C2_amended_promotion_only_adhoc_or_craft_witness :
    maybeEnableOAuth workDef = none
    ∧ ∃ st2,
        runIteration { craftDef with auth := .noAuth } none
            { streaming := unauthorizedNoFinishScript, sse := unauthorizedNoFinishScript }
            (startRunState { craftDef with auth := .noAuth })
          = (.retry, promotedOf { craftDef with auth := .noAuth }, st2)
        ∧ maybeEnableOAuth { craftDef with auth := .noAuth } =
            some (promotedOf { craftDef with auth := .noAuth })
        ∧ (promotedOf { craftDef with auth := .noAuth }).auth = .oauth
        ∧ (promotedOf { craftDef with auth := .noAuth }).name =
            ({ craftDef with auth := .noAuth } : ServerDefinition).name
        ∧ lookupA st2.defs ({ craftDef with auth := .noAuth } : ServerDefinition).name =
            some (promotedOf { craftDef with auth := .noAuth }) :=
  ⟨C2_amended_promotion_only_adhoc_or_craft.1 workDef
     { hostname := "mcp.example.com", full := "https://mcp.example.com/mcp" }
     rfl (by decide) (by decide),
   C2_amended_promotion_only_adhoc_or_craft.2 { craftDef with auth := .noAuth }
     { hostname := "mcp.craft.do", full := "https://mcp.craft.do/links/S/mcp" }
     none
     { streaming := unauthorizedNoFinishScript, sse := unauthorizedNoFinishScript }
     (startRunState { craftDef with auth := .noAuth }) "HTTP 401"
     rfl (by decide) (Or.inr (by decide)) (by decide) rfl rfl⟩

/-- C3 counterexample: a connect issued by listTools with autoAuthorize
false (maxOAuthAttempts 0) against a Craft definition whose connect attempt
is classified Unauthorized: connectWithAuth rethrows (the flow is not
permitted), no promotion applies (auth is already oauth), the Craft URL
skips the SSE fallback, and the Unauthorized error is thrown to the
external caller of listTools. -/
theorem C3_counterexample_unauthorized_escapes :
    listToolsConnectOptions false = (some 0, false)
    ∧ (createClientRun 2 (constWorld unauthorizedFinishScript) 0 craftDef (some 0)
        (startRunState craftDef)).1 = .failed (.unauthorized "HTTP 401")
    ∧ isUnauthorizedError (.unauthorized "HTTP 401") = true := by
  refine ⟨rfl, ?_, rfl⟩
  decide

/-- C3 amended: the containment of Unauthorized and TokensRefreshed is
conditional.  On the streaming path with auto-authorization permitted
(maxOAuthAttempts not 0) the complete OAuth flow ends in the internal
TokensRefreshed signal, which the retry loop consumes (a retry, not a
surfaced error).  With maxOAuthAttempts 0 an Unauthorized failure on a
Craft target surfaces verbatim to the caller.  And when the flow completes
on the SSE fallback path, the TokensRefreshed signal is not caught by the
SSE catch block and escapes to the caller instead of retrying. -/
theorem C3_amended_conditional_containment :
    (∀ (active : ServerDefinition) (u : UrlInfo) (maxOA : Option Nat) (script : IterScript)
       (st : RunState) (m1 m2 code : String),
       active.command = .httpCmd u →
       script.streaming.connectResult = some (.unauthorized m1) →
       script.streaming.transportHasFinishAuth = true →
       script.streaming.retryConnectResult = some (.unauthorized m2) →
       script.streaming.newTransportHasFinishAuth = true →
       script.streaming.waitResult = some (.ok code) →
       script.streaming.finishAuthResult = none →
       maxOA ≠ some 0 →
       (runIteration active maxOA script st).1 = .retry)
    ∧ (∀ (active : ServerDefinition) (u : UrlInfo) (script : IterScript) (st : RunState)
         (m : String),
         active.command = .httpCmd u →
         active.auth = .oauth →
         isCraftUrl u = true →
         script.streaming.connectResult = some (.unauthorized m) →
         (runIteration active (some 0) script st).1 = .done (.failed (.unauthorized m)))
    ∧ (∀ (active : ServerDefinition) (u : UrlInfo) (maxOA : Option Nat) (script : IterScript)
         (st : RunState) (m0 m1 m2 code : String),
         active.command = .httpCmd u →
         isCraftUrl u = false →
         script.streaming.connectResult = some (.transportFailure m0) →
         script.sse.connectResult = some (.unauthorized m1) →
         script.sse.transportHasFinishAuth = true →
         script.sse.retryConnectResult = some (.unauthorized m2) →
         script.sse.newTransportHasFinishAuth = true →
         script.sse.waitResult = some (.ok code) →
         script.sse.finishAuthResult = none →
         maxOA ≠ some 0 →
         (runIteration active maxOA script st).1 =
           .done (.failed (.tokensRefreshed "OAuth tokens refreshed, retry connection"))) := by
  refine ⟨?_, ?_, ?_⟩
  · intro active u maxOA script st m1 m2 code hcmd h1 h2 h3 h4 h5 h6 hmax
    obtain ⟨sess, st1, hs⟩ : ∃ sess st1, ensureIterSession active u st = (sess, st1) :=
      ⟨_, _, rfl⟩
    obtain ⟨eff2, hcwa⟩ := connectWithAuthM_tokensRefreshed script.streaming sess active u
      maxOA st1.eff m1 m2 code hcmd h1 h2 h3 h4 h5 h6 hmax
    rw [runIteration_failed active u maxOA script st st1 sess
      (.tokensRefreshed "OAuth tokens refreshed, retry connection") eff2 hcmd hs hcwa]
    rw [afterPrimary_tokensRefreshed_retry]
  · intro active u script st m hcmd hauth hcraft h1
    obtain ⟨sess, st1, hs⟩ : ∃ sess st1, ensureIterSession active u st = (sess, st1) :=
      ⟨_, _, rfl⟩
    have hcwa := connectWithAuthM_rethrow_maxZero script.streaming sess active st1.eff
      (.unauthorized m) h1
    rw [runIteration_failed active u (some 0) script st st1 sess
      (.unauthorized m) st1.eff hcmd hs hcwa]
    exact afterPrimary_unauthorized_craft active u (some 0) script.sse sess m
      { st1 with eff := st1.eff } (maybeEnableOAuth_of_oauth active hauth) hcraft
  · intro active u maxOA script st m0 m1 m2 code hcmd hcraft h0 h1 h2 h3 h4 h5 h6 hmax
    obtain ⟨sess, st1, hs⟩ : ∃ sess st1, ensureIterSession active u st = (sess, st1) :=
      ⟨_, _, rfl⟩
    have hcwa := connectWithAuthM_rethrow_notAuth script.streaming sess active maxOA
      st1.eff (.transportFailure m0) h0 rfl
    rw [runIteration_failed active u maxOA script st st1 sess
      (.transportFailure m0) st1.eff hcmd hs hcwa]
    exact afterPrimary_sse_tokensRefreshed active u maxOA script.sse sess m0
      { st1 with eff := st1.eff } m1 m2 code hcmd hcraft h1 h2 h3 h4 h5 h6 hmax

/-- Witness for C3 amended at concrete runs: a completed streaming OAuth
flow retries, an Unauthorized failure with maxOAuthAttempts 0 surfaces on a
Craft target, and a completed SSE OAuth flow leaks the TokensRefreshed
signal. -/
theorem C3_amended_conditional_containment_witness :
    (runIteration craftDef none
        { streaming := { connectResult := some (.unauthorized "HTTP 401")
                         transportHasFinishAuth := true
                         retryConnectResult := some (.unauthorized "HTTP 401")
                         newTransportHasFinishAuth := true
                         waitResult := some (.ok "CODE")
                         finishAuthResult := none }
          sse := unauthorizedNoFinishScript }
        (startRunState craftDef)).1 = .retry
    ∧ (runIteration craftDef (some 0)
        { streaming := unauthorizedFinishScript, sse := unauthorizedFinishScript }
        (startRunState craftDef)).1 = .done (.failed (.unauthorized "HTTP 401"))
    ∧ (runIteration workDef none
        { streaming := { connectResult := some (.transportFailure "ECONNRESET")
                         transportHasFinishAuth := true
                         retryConnectResult := none
                         newTransportHasFinishAuth := false
                         waitResult := none
                         finishAuthResult := none }
          sse := { connectResult := some (.unauthorized "HTTP 401")
                   transportHasFinishAuth := true
                   retryConnectResult := some (.unauthorized "HTTP 401")
                   newTransportHasFinishAuth := true
                   waitResult := some (.ok "CODE")
                   finishAuthResult := none } }
        (startRunState workDef)).1 =
      .done (.failed (.tokensRefreshed "OAuth tokens refreshed, retry connection")) :=
  ⟨C3_amended_conditional_containment.1 craftDef
     { hostname := "mcp.craft.do", full := "https://mcp.craft.do/links/S/mcp" }
     none _ (startRunState craftDef) "HTTP 401" "HTTP 401" "CODE"
     rfl rfl rfl rfl rfl rfl rfl (by decide),
   C3_amended_conditional_containment.2.1 craftDef
     { hostname := "mcp.craft.do", full := "https://mcp.craft.do/links/S/mcp" }
     _ (startRunState craftDef) "HTTP 401" rfl rfl (by decide) rfl,
   C3_amended_conditional_containment.2.2 workDef
     { hostname := "mcp.example.com", full := "https://mcp.example.com/mcp" }
     none _ (startRunState workDef) "ECONNRESET" "HTTP 401" "HTTP 401" "CODE"
     rfl (by decide) rfl rfl rfl rfl rfl rfl rfl (by decide)⟩

/-- C4 diagnosis: the bounded-wait helper behaves exactly as the claim says
(a never-settling authorization future raced against a 50 ms timeout
rejects at 50 ms with the OAuthTimeoutError carrying server name and
timeout, and the default timeout is 60000 ms), and the runtime handler
would surface such an error verbatim while closing the OAuth session; but
the connect cycle never races the wait: at the failing input (a Craft
oauth definition whose two connect attempts are Unauthorized and whose
user never completes the browser flow) the runtime suspends forever with
no timeout failure and no listener teardown, because connectWithAuth
awaits the raw authorization-code future instead of
waitForAuthorizationCodeWithTimeout. -/
theorem C4_timeout_helper_unused_runtime_hangs :
    defaultOAuthCodeTimeoutMs = 60000
    ∧ waitForAuthorizationCodeWithTimeoutM (some "work") 50 .neverSettles =
        some (50, .error (.oauthTimeout "work" 50))
    ∧ (createClientRun 2 (constWorld neverAuthorizedScript) 0 craftDef none
        (startRunState craftDef)).1 = .hung
    ∧ (createClientRun 2 (constWorld neverAuthorizedScript) 0 craftDef none
        (startRunState craftDef)).2.eff.closedSessions = []
    ∧ (runIteration craftDef none (constWorld timeoutErrorScript 0)
        (startRunState craftDef)).1 = .done (.failed (.oauthTimeout "work" 50))
    ∧ (runIteration craftDef none (constWorld timeoutErrorScript 0)
        (startRunState craftDef)).2.2.eff.closedSessions = [0] := by
  refine ⟨rfl, rfl, ?_, ?_, ?_, ?_⟩ <;> decide
